import Mathlib

/-!
Shallow embedding of `src/flaky_api.py` (the `FlakyLLM` mitmproxy addon).

Modelling conventions:
- A string is a Lean `String`; Python list/str operations (`split`, `strip`,
  substring `in`) are re-implemented on `String.data` so everything reduces
  in the kernel.
- `random.random()` (a uniform draw from `[0,1)`) is modelled as an explicit
  rational parameter `r`; claims quantify over all `r` with `0 ≤ r < 1`.
- `random.choice(seq)` (a uniform pick from a non-empty sequence) is modelled
  as an explicit index parameter `i : Nat`, reduced modulo the length.
- Python's `float(s)` (which raises `ValueError` on an unparseable string) is
  modelled by `parseFloat : String → Option ℚ`, restricted to the plain
  decimal literals the configuration surface uses (optional sign, digits,
  optional fractional part, surrounding whitespace); `none` models the raise.
  The exact values 0 and 1 used by the claims are representable exactly in
  binary floating point, so ℚ is a faithful carrier for them.
- The mitmproxy effects become a `Decision` value: setting `flow.response`
  is `Respond status headers body`, `flow.kill()` is `Abort`, and reaching
  the end of `request` without either is `PassThrough`.
- The mutable `self.request_count` becomes explicit state passing: `request`
  takes the current count and returns the new one.  A raised exception is an
  `Except.error` in the decision component, with the (already mutated)
  counter still returned.
-/

namespace FlakyApi

/-- The outcome of evaluating one request: pass it through unmodified,
short-circuit with a synthetic response, or abort the connection. -/
inductive Decision where
  | PassThrough : Decision
  | Respond (status : Nat) (headers : List (String × String)) (body : String) : Decision
  | Abort : Decision
deriving DecidableEq

/-- The only exception `FlakyLLM.request` can raise: the `ValueError` from
`float(ctx.options.failure_rate)` on line 33. -/
inductive ReqError where
  | parseError : ReqError
deriving DecidableEq

/-- The two mitmproxy options registered by `FlakyLLM.load` (lines 13–25),
both string-typed. -/
structure Config where
  failure_rate : String
  failure_types : String
deriving DecidableEq

deriving instance DecidableEq for Except

/-- The loader `FlakyLLM.load` (lines 13–25) only registers the two string options with
defaults and help text; it performs no validation, so every configuration is
accepted at load time. -/
def loadAccepts (_cfg : Config) : Bool := true

/-- The option defaults registered by `load`: `failure_rate = "0.3"`,
`failure_types` = all five kinds (lines 17 and 23). -/
def defaultConfig : Config :=
  { failure_rate := "0.3"
    failure_types := "rate_limit,server_error,network_error,auth_error,invalid_request" }

/-- Whether `needle` is a prefix of the second list (Python `startswith`,
used to build the substring test). -/
def isPrefixOfL : List Char → List Char → Bool
  | [], _ => true
  | _ :: _, [] => false
  | a :: as, b :: bs => a = b && isPrefixOfL as bs

/-- Whether `needle` occurs as a contiguous substring of the haystack:
Python's `needle in haystack` on strings. -/
def isInfixOfL (needle : List Char) : List Char → Bool
  | [] => needle.isEmpty
  | h :: t => isPrefixOfL needle (h :: t) || isInfixOfL needle t

/-- Python `sub in host` for strings. -/
def containsSub (host sub : String) : Bool := isInfixOfL sub.data host.data

/-- The hardcoded host substrings of line 29. -/
def matchedHosts : List String := ["together.xyz", "anthropic.com", "openrouter.ai"]

/-- Line 29: the request is intercepted iff its host contains one of the
three hardcoded substrings. -/
def eligible (host : String) : Bool := matchedHosts.any (fun m => containsSub host m)

/-- Python `str.strip()` on a character list: drop leading and trailing
whitespace. -/
def trimChars (l : List Char) : List Char :=
  ((l.dropWhile Char.isWhitespace).reverse.dropWhile Char.isWhitespace).reverse

/-- Python `str.strip()`. -/
def pyStrip (s : String) : String := ⟨trimChars s.data⟩

/-- Python `str.split(',')` on a character list: always returns at least one
(possibly empty) piece; `"".split(',') == [""]`. -/
def splitOnComma : List Char → List (List Char)
  | [] => [[]]
  | c :: rest =>
    if c = ',' then [] :: splitOnComma rest
    else
      match splitOnComma rest with
      | [] => [[c]]
      | a :: as => (c :: a) :: as

/-- Python `s.split(',')`. -/
def pySplitComma (s : String) : List String := (splitOnComma s.data).map String.mk

/-- Line 38: `[ft.strip() for ft in ctx.options.failure_types.split(',')]`. -/
def strippedTypes (failure_types : String) : List String :=
  (pySplitComma failure_types).map pyStrip

/-- Line 39: `random.choice(failure_types)`, with the random draw made
explicit as an index `i` reduced modulo the length.  `split` never returns
an empty list, so the default is unreachable on the code's inputs. -/
def choose (l : List String) (i : Nat) : String := l.getD (i % l.length) ""

/-- Numeric value of a digit string (empty means 0, as in `float("1.")`). -/
def natOfDigits (l : List Char) : Nat :=
  l.foldl (fun a c => 10 * a + (c.toNat - Char.toNat '0')) 0

/-- Python `float(s)` on an unsigned plain decimal literal: digits, optional
point, optional fractional digits, at least one digit overall.  Exponents,
`inf`/`nan` and digit underscores are outside the configuration surface the
claims exercise and are not modelled. -/
def parseUnsignedFloat (l : List Char) : Option ℚ :=
  let ip := l.takeWhile Char.isDigit
  let rest := l.dropWhile Char.isDigit
  match rest with
  | [] => if ip = [] then none else some (mkRat (Int.ofNat (natOfDigits ip)) 1)
  | c :: rest2 =>
    if c = '.' then
      let fp := rest2.takeWhile Char.isDigit
      let rest3 := rest2.dropWhile Char.isDigit
      if rest3 = [] ∧ (ip ≠ [] ∨ fp ≠ []) then
        some (mkRat (Int.ofNat (natOfDigits ip * 10 ^ fp.length + natOfDigits fp))
          (10 ^ fp.length))
      else none
    else none

/-- Python `float(s)` (line 33): strips surrounding whitespace, handles an
optional sign, else as `parseUnsignedFloat`; `none` models the `ValueError`
raised on anything unparseable. -/
def parseFloat (s : String) : Option ℚ :=
  match trimChars s.data with
  | '+' :: rest => parseUnsignedFloat rest
  | '-' :: rest => (parseUnsignedFloat rest).map (fun q => -q)
  | l => parseUnsignedFloat l

/-- The `Content-Type: application/json` header dictionary used by every
synthetic response. -/
def jsonCT : List (String × String) := [("Content-Type", "application/json")]

/-- Body of the 429 response (line 44). -/
def rateLimitBody : String :=
  "\x7b\"error\": \x7b\"message\": \"Rate limit exceeded\", \"type\": \"rate_limit_error\"\x7d\x7d"

/-- Body of the 500 response (line 51). -/
def serverErrorBody : String :=
  "\x7b\"error\": \x7b\"message\": \"Internal server error\"\x7d\x7d"

/-- Body of the 401 response (line 63). -/
def authErrorBody : String :=
  "\x7b\"error\": \x7b\"message\": \"Invalid API key\", \"type\": \"authentication_error\"\x7d\x7d"

/-- Body of the 400 response (line 70). -/
def invalidRequestBody : String :=
  "\x7b\"error\": \x7b\"message\": \"Invalid request: missing required parameter\", \"type\": \"invalid_request_error\"\x7d\x7d"

/-- The five failure-kind names recognised by the dispatch chain. -/
def validKinds : List String :=
  ["rate_limit", "server_error", "network_error", "auth_error", "invalid_request"]

/-- Lines 41–72: the `if`/`elif` chain dispatching on the chosen failure-type
name.  An unrecognised name falls through every branch, leaving the flow
untouched (pass-through). -/
def materialize (ft : String) : Decision :=
  if ft = "rate_limit" then .Respond 429 jsonCT rateLimitBody
  else if ft = "server_error" then .Respond 500 jsonCT serverErrorBody
  else if ft = "network_error" then .Abort
  else if ft = "auth_error" then .Respond 401 jsonCT authErrorBody
  else if ft = "invalid_request" then .Respond 400 jsonCT invalidRequestBody
  else .PassThrough

/-- Lines 32–72, the part of `request` after the counter increment: parse the
rate (may raise), sample, and on the failure path choose and materialise a
failure type. -/
def decideEligible (cfg : Config) (r : ℚ) (i : Nat) : Except ReqError Decision :=
  match parseFloat cfg.failure_rate with
  | none => .error .parseError
  | some rate =>
    if r < rate then .ok (materialize (choose (strippedTypes cfg.failure_types) i))
    else .ok .PassThrough

/-- The handler `FlakyLLM.request` (lines 27–74): if the host matches, increment the
counter then decide; otherwise leave everything untouched.  Returns the
decision (or the raised error) together with the new counter value; on a
raise the already-performed increment persists, as it does on the Python
object. -/
def request (cfg : Config) (host : String) (r : ℚ) (i : Nat) (count : Nat) :
    Except ReqError Decision × Nat :=
  if eligible host then (decideEligible cfg r i, count + 1)
  else (.ok .PassThrough, count)

/-- A sequence of calls on one `FlakyLLM` instance, threading the counter:
each call is (host, sampled r, choice index). -/
def runAll (cfg : Config) (calls : List (String × ℚ × Nat)) (count : Nat) :
    List (Except ReqError Decision) × Nat :=
  match calls with
  | [] => ([], count)
  | (h, r, i) :: rest =>
    let step := request cfg h r i count
    let tail := runAll cfg rest step.2
    (step.1 :: tail.1, tail.2)

/-! ## Helper lemmas -/

/-- Python `split` never returns an empty list of pieces. -/
theorem splitOnComma_ne_nil (l : List Char) : splitOnComma l ≠ [] := by
  cases l with
  | nil => simp [splitOnComma]
  | cons c rest =>
    simp only [splitOnComma]
    split
    · simp
    · split <;> simp

/-- The stripped failure-type list is never empty, whatever the option string. -/
theorem strippedTypes_ne_nil (s : String) : strippedTypes s ≠ [] := by
  simp only [strippedTypes, pySplitComma, ne_eq, List.map_eq_nil_iff]
  exact splitOnComma_ne_nil _

/-- The pick `random.choice` returns an element of its (non-empty) argument. -/
theorem choose_mem (l : List String) (i : Nat) (h : l ≠ []) : choose l i ∈ l := by
  have hlen : 0 < l.length := List.length_pos.mpr h
  have hmod : i % l.length < l.length := Nat.mod_lt _ hlen
  simp only [choose, List.getD_eq_getElem?_getD, List.getElem?_eq_getElem hmod,
    Option.getD_some]
  exact List.getElem_mem hmod

/-- A recognised failure-type name materialises to a synthetic response or an
abort, never to pass-through. -/
theorem materialize_of_valid (ft : String) (h : ft ∈ validKinds) :
    (∃ s hs b, materialize ft = .Respond s hs b) ∨ materialize ft = .Abort := by
  simp only [validKinds, List.mem_cons, List.not_mem_nil, or_false] at h
  rcases h with h | h | h | h | h <;> subst h
  · exact .inl ⟨429, jsonCT, rateLimitBody, by decide⟩
  · exact .inl ⟨500, jsonCT, serverErrorBody, by decide⟩
  · exact .inr (by decide)
  · exact .inl ⟨401, jsonCT, authErrorBody, by decide⟩
  · exact .inl ⟨400, jsonCT, invalidRequestBody, by decide⟩

/-- An unrecognised failure-type name falls through the whole dispatch chain. -/
theorem materialize_of_invalid (ft : String) (h : ft ∉ validKinds) :
    materialize ft = .PassThrough := by
  simp only [validKinds, List.mem_cons, List.not_mem_nil, or_false, not_or] at h
  obtain ⟨h1, h2, h3, h4, h5⟩ := h
  simp [materialize, h1, h2, h3, h4, h5]

/-! ## Claim theorems -/

/-- C1: for every configuration whose `failure_rate` parses to 1.0 and whose
stripped `failure_types` entries are all recognised kind names, and every
host containing a matched substring, `request` never yields `PassThrough`:
it yields a `Respond status headers body` decision or `Abort` (and raises
nothing), for every sampled `r ∈ [0,1)` and every random choice index. -/
theorem C1_full_rate_never_passthrough (cfg : Config) (host : String) (r : ℚ)
    (i count : Nat) (hrate : parseFloat cfg.failure_rate = some 1)
    (hvalid : ∀ ft ∈ strippedTypes cfg.failure_types, ft ∈ validKinds)
    (helig : eligible host = true) (_hr0 : 0 ≤ r) (hr1 : r < 1) :
    ∃ d, (request cfg host r i count).1 = .ok d ∧
      ((∃ s hs b, d = .Respond s hs b) ∨ d = .Abort) := by
  have hmem := choose_mem (strippedTypes cfg.failure_types) i (strippedTypes_ne_nil _)
  refine ⟨materialize (choose (strippedTypes cfg.failure_types) i), ?_, ?_⟩
  · simp [request, helig, decideEligible, hrate, hr1]
  · rcases materialize_of_valid _ (hvalid _ hmem) with ⟨s, hs, b, he⟩ | he
    · exact .inl ⟨s, hs, b, he⟩
    · exact .inr he

/-- Witness for C1 at `failure_rate = "1.0"`, `failure_types =
"network_error"`, host `"together.xyz"`, `r = 0`. -/
theorem C1_witness :
    ∃ d, (request ⟨"1.0", "network_error"⟩ "together.xyz" 0 0 0).1 = .ok d ∧
      ((∃ s hs b, d = .Respond s hs b) ∨ d = .Abort) :=
  C1_full_rate_never_passthrough ⟨"1.0", "network_error"⟩ "together.xyz" 0 0 0
    (by decide) (by decide) (by decide) (by decide) (by decide)

/-- C2 counterexample: the claim says configuration errors are caught at load
time, so that accepted configurations never make `request` raise.  But `load`
accepts the unparseable rate `"abc"` (it validates nothing), and the first
eligible request then raises the `float` parse error. -/
theorem C2_counterexample :
    loadAccepts ⟨"abc", "rate_limit"⟩ = true ∧
    request ⟨"abc", "rate_limit"⟩ "api.anthropic.com" 0 0 0 =
      (.error .parseError, 1) := by
  refine ⟨rfl, ?_⟩
  have he : eligible "api.anthropic.com" = true := by decide
  have hp : parseFloat "abc" = none := by decide
  simp [request, he, decideEligible, hp]

/-- C2 as amended: `load` performs no validation (every configuration is
accepted at startup), and `request` never errors only for configurations
whose `failure_rate` parses; it then yields a valid decision for every host,
sample and choice index. -/
theorem C2_no_load_validation (cfg : Config) (host : String) (r : ℚ)
    (i count : Nat) (q : ℚ) (hq : parseFloat cfg.failure_rate = some q) :
    loadAccepts cfg = true ∧ ∃ d, (request cfg host r i count).1 = .ok d := by
  refine ⟨rfl, ?_⟩
  cases he : eligible host with
  | false => exact ⟨.PassThrough, by simp [request, he]⟩
  | true =>
    by_cases hr : r < q
    · exact ⟨materialize (choose (strippedTypes cfg.failure_types) i),
        by simp [request, he, decideEligible, hq, hr]⟩
    · exact ⟨.PassThrough, by simp [request, he, decideEligible, hq, hr]⟩

/-- Witness for the amended C2 at `failure_rate = "0.5"`. -/
theorem C2_witness :
    loadAccepts ⟨"0.5", "rate_limit"⟩ = true ∧
    ∃ d, (request ⟨"0.5", "rate_limit"⟩ "openrouter.ai" 0 0 0).1 = .ok d :=
  C2_no_load_validation ⟨"0.5", "rate_limit"⟩ "openrouter.ai" 0 0 0
    (mkRat 1 2) (by decide)

/-- C3: a host containing no matched substring always yields `PassThrough`
with the counter (the only state) unchanged, for every configuration. -/
theorem C3_unmatched_passthrough (cfg : Config) (host : String) (r : ℚ)
    (i count : Nat) (h : eligible host = false) :
    request cfg host r i count = (.ok .PassThrough, count) := by
  simp [request, h]

/-- Witness for C3 at host `"example.com"`. -/
theorem C3_witness :
    request defaultConfig "example.com" 0 0 7 = (.ok .PassThrough, 7) :=
  C3_unmatched_passthrough defaultConfig "example.com" 0 0 7 (by decide)

/-- C4: the embedding returns a single `Decision` value per matched request
by construction (the dispatch is an `if`/`elif` chain), and in the concrete
scenario `failure_rate = "1.0"`, `failure_types = "network_error"`, host
`"together.xyz"`, every sample `r ∈ [0,1)` and choice index yields exactly
`Abort` — no synthetic response is ever combined with it. -/
theorem C4_network_error_abort (r : ℚ) (i count : Nat) (_hr0 : 0 ≤ r)
    (hr1 : r < 1) :
    request ⟨"1.0", "network_error"⟩ "together.xyz" r i count =
      (.ok .Abort, count + 1) := by
  have he : eligible "together.xyz" = true := by decide
  have hp : parseFloat "1.0" = some 1 := by decide
  have h2 : strippedTypes "network_error" = ["network_error"] := by decide
  have hc : choose (strippedTypes "network_error") i = "network_error" := by
    rw [h2]; simp [choose, Nat.mod_one]
  have hm : materialize "network_error" = .Abort := by decide
  simp [request, he, decideEligible, hp, hr1, hc, hm]

/-- Witness for C4 at `r = 0`. -/
theorem C4_witness :
    request ⟨"1.0", "network_error"⟩ "together.xyz" 0 0 0 = (.ok .Abort, 1) :=
  C4_network_error_abort 0 0 0 (by decide) (by decide)

/-- C5: with `failure_rate = "1.0"` and `failure_types = "auth_error"`, host
`"api.anthropic.com"` yields exactly the 401 response with the
`Content-Type: application/json` header and the spec's body, character for
character, for every sample `r ∈ [0,1)` and choice index. -/
theorem C5_auth_error_response (r : ℚ) (i count : Nat) (_hr0 : 0 ≤ r)
    (hr1 : r < 1) :
    request ⟨"1.0", "auth_error"⟩ "api.anthropic.com" r i count =
      (.ok (.Respond 401 [("Content-Type", "application/json")]
        "\x7b\"error\": \x7b\"message\": \"Invalid API key\", \"type\": \"authentication_error\"\x7d\x7d"),
       count + 1) := by
  have he : eligible "api.anthropic.com" = true := by decide
  have hp : parseFloat "1.0" = some 1 := by decide
  have h2 : strippedTypes "auth_error" = ["auth_error"] := by decide
  have hc : choose (strippedTypes "auth_error") i = "auth_error" := by
    rw [h2]; simp [choose, Nat.mod_one]
  have hm : materialize "auth_error" = .Respond 401
      [("Content-Type", "application/json")]
      "\x7b\"error\": \x7b\"message\": \"Invalid API key\", \"type\": \"authentication_error\"\x7d\x7d" := by
    decide
  simp [request, he, decideEligible, hp, hr1, hc, hm]

/-- Witness for C5 at `r = 0`. -/
theorem C5_witness :
    request ⟨"1.0", "auth_error"⟩ "api.anthropic.com" 0 0 0 =
      (.ok (.Respond 401 [("Content-Type", "application/json")]
        "\x7b\"error\": \x7b\"message\": \"Invalid API key\", \"type\": \"authentication_error\"\x7d\x7d"),
       1) :=
  C5_auth_error_response 0 0 0 (by decide) (by decide)

/-- C6: with `failure_rate` parsing to 0.0, every call in any sequence of
calls (eligible or not) whose samples satisfy `0 ≤ r` yields `PassThrough`:
the `r < failureRate` test can never fire, so the allow path (`r ≥ rate`) is
taken on every draw. -/
theorem C6_zero_rate_all_passthrough (cfg : Config)
    (calls : List (String × ℚ × Nat)) (count : Nat)
    (hrate : parseFloat cfg.failure_rate = some 0)
    (hr : ∀ c ∈ calls, 0 ≤ c.2.1) :
    ∀ d ∈ (runAll cfg calls count).1, d = .ok .PassThrough := by
  induction calls generalizing count with
  | nil => simp [runAll]
  | cons c rest ih =>
    obtain ⟨h, r, i⟩ := c
    have hr0 : 0 ≤ r := hr ⟨h, r, i⟩ (List.mem_cons_self _ _)
    have hstep : (request cfg h r i count).1 = .ok .PassThrough := by
      cases he : eligible h with
      | false => simp [request, he]
      | true =>
        have hlt : ¬ r < 0 := not_lt.mpr hr0
        simp [request, he, decideEligible, hrate, hlt]
    intro d hd
    simp only [runAll] at hd
    rcases List.mem_cons.mp hd with h1 | h2
    · rw [h1, hstep]
    · exact ih _ (fun x hx => hr x (List.mem_cons_of_mem _ hx)) d h2

/-- Witness for C6: two calls at rate `"0.0"`, both pass through. -/
theorem C6_witness :
    (runAll ⟨"0.0", "rate_limit"⟩ [("together.xyz", 0, 0)] 0).1.getD 0
      (.ok .Abort) = .ok .PassThrough := by
  have h := C6_zero_rate_all_passthrough ⟨"0.0", "rate_limit"⟩
    [("together.xyz", 0, 0)] 0 (by decide) (by decide)
  exact h _ (by decide)

/-- C7: the counter grows by exactly 1 on an eligible call — whatever the
decision, even when the rate parse raises — and by 0 on an ineligible call,
so it never decreases. -/
theorem C7_counter_increment (cfg : Config) (host : String) (r : ℚ)
    (i count : Nat) :
    (request cfg host r i count).2 =
      (if eligible host then count + 1 else count) ∧
    count ≤ (request cfg host r i count).2 := by
  cases he : eligible host with
  | false => simp [request, he]
  | true => simp [request, he]

/-- C8: when the chosen (stripped) failure-type name is not one of the five
recognised kinds — e.g. the empty string obtained from an empty
`failure_types` option — the dispatch chain falls through: the request
neither errors, responds, nor aborts, and passes through even though it was
sampled for failure (the counter still increments). -/
theorem C8_unknown_type_passthrough (cfg : Config) (host : String)
    (r rate : ℚ) (i count : Nat) (helig : eligible host = true)
    (hrate : parseFloat cfg.failure_rate = some rate) (hr : r < rate)
    (hft : choose (strippedTypes cfg.failure_types) i ∉ validKinds) :
    request cfg host r i count = (.ok .PassThrough, count + 1) := by
  have hm := materialize_of_invalid _ hft
  simp [request, helig, decideEligible, hrate, hr, hm]

/-- Witness for C8: empty `failure_types` selects the empty-string name. -/
theorem C8_witness :
    request ⟨"1.0", ""⟩ "anthropic.com" 0 0 0 = (.ok .PassThrough, 1) :=
  C8_unknown_type_passthrough ⟨"1.0", ""⟩ "anthropic.com" 0 1 0 0
    (by decide) (by decide) (by decide) (by decide)

/-- C9: each comma-separated `failure_types` entry is stripped of
surrounding whitespace before selection, so `" rate_limit , server_error "`
behaves identically to `"rate_limit,server_error"` on every host, sample,
choice index and counter value — in particular the decision distributions
coincide. -/
theorem C9_whitespace_stripped (fr host : String) (r : ℚ) (i count : Nat) :
    request ⟨fr, " rate_limit , server_error "⟩ host r i count =
      request ⟨fr, "rate_limit,server_error"⟩ host r i count := by
  have h : strippedTypes " rate_limit , server_error " =
      strippedTypes "rate_limit,server_error" := by decide
  simp only [request, decideEligible, h]

/-- C10: with an unparseable `failure_rate`, an eligible call raises the
parse error only after the counter has been incremented (the returned state
is `count + 1` alongside the error), while an ineligible call never reaches
the parse and passes through with the counter unchanged. -/
theorem C10_parse_error_after_increment (cfg : Config) (host : String)
    (r : ℚ) (i count : Nat) (hrate : parseFloat cfg.failure_rate = none) :
    request cfg host r i count =
      if eligible host then (.error .parseError, count + 1)
      else (.ok .PassThrough, count) := by
  cases he : eligible host with
  | false => simp [request, he]
  | true => simp [request, he, decideEligible, hrate]

/-- Witness for C10: `failure_rate = "oops"`, eligible host, counter 5→6. -/
theorem C10_witness :
    request ⟨"oops", "rate_limit"⟩ "api.together.xyz" 0 0 5 =
      (.error .parseError, 6) := by
  rw [C10_parse_error_after_increment ⟨"oops", "rate_limit"⟩
    "api.together.xyz" 0 0 5 (by decide)]
  have he : eligible "api.together.xyz" = true := by decide
  simp [he]

end FlakyApi
